import Mathlib

/-!
Verification of the chat application's message synchronization engine.

The definitions below are a shallow embedding of the TypeScript source:
the `ChatWindow` component (message list state, `loadMessages`, the
realtime INSERT/UPDATE/DELETE handlers, `sendMessage`, `startEditMessage`,
`cancelEditMessage`, `saveEditMessage`, `deleteMessage`) and the
`FriendsList` component (`handleAcceptRequest`).  Timestamps are modelled
as naturals (ISO-8601 strings compare like their times); the store's
fallible network calls are modelled by explicit success flags.
-/

namespace ChatApp

/-- Sender display identity, the joined `sender:sender_id(email)` record. -/
structure Sender where
  email : String
deriving DecidableEq

/-- A message as held in the component state (the `Message` interface).
`isEditing` is the optional local view-state flag; `undefined` in the
source is falsy, so it is modelled as a `Bool` defaulting to `false`. -/
structure Message where
  id : String
  content : String
  created_at : Nat
  sender_id : String
  conversation_id : String
  sender : Sender
  isEditing : Bool := false
deriving DecidableEq

/-- A row of the store's `messages` table together with the joined sender
email, as returned by the select in `loadMessages`. -/
structure MsgRow where
  id : String
  content : String
  created_at : Nat
  sender_id : String
  conversation_id : String
  sender_email : String
deriving DecidableEq

/-- Normalization of a fetched row into component state (the map at the
end of `loadMessages`; no `isEditing` field is set, so it is `false`). -/
def MsgRow.toMessage (r : MsgRow) : Message :=
  { id := r.id, content := r.content, created_at := r.created_at,
    sender_id := r.sender_id, conversation_id := r.conversation_id,
    sender := { email := r.sender_email }, isEditing := false }

/-- The fixed page size `MESSAGES_PER_PAGE = 20`. -/
def MESSAGES_PER_PAGE : Nat := 20

/-- Insertion step of the store's descending `order('created_at')`. -/
def insertDesc (r : MsgRow) : List MsgRow → List MsgRow
  | [] => [r]
  | x :: xs => if x.created_at ≤ r.created_at then r :: x :: xs else x :: insertDesc r xs

/-- The store's ordering by `created_at` descending (most recent first). -/
def sortDesc : List MsgRow → List MsgRow
  | [] => []
  | x :: xs => insertDesc x (sortDesc xs)

/-- The store query of `loadMessages`: filter by conversation, order by
`created_at` descending, take the inclusive index range `[lo, hi]`; also
returns the exact filtered count (`count: 'exact'`). -/
def queryRange (rows : List MsgRow) (cid : String) (lo hi : Nat) : List MsgRow × Nat :=
  let filtered := rows.filter (fun r => decide (r.conversation_id = cid))
  (((sortDesc filtered).drop lo).take (hi + 1 - lo), filtered.length)

/-- The `loadMessages(pageNumber)` fetch: window `[page*20, page*20+19]`
descending, reversed to ascending, normalized; `hasMore` is
`from + newMessages.length < count`. -/
def loadMessages (rows : List MsgRow) (cid : String) (pageNumber : Nat) :
    List Message × Bool :=
  let lo := pageNumber * MESSAGES_PER_PAGE
  let hi := lo + MESSAGES_PER_PAGE - 1
  let q := queryRange rows cid lo hi
  let newMessages := q.1.reverse.map MsgRow.toMessage
  (newMessages, decide (lo + newMessages.length < q.2))

/-- The `append = true` branch of `loadMessages`:
`setMessages(prev => [...newMessages, ...prev])`. -/
def pagePrepend (newMessages prev : List Message) : List Message :=
  newMessages ++ prev

/-- The INSERT handler's state change:
`setMessages(prev => [...prev, messageWithSender])`. -/
def liveInsert (prev : List Message) (m : Message) : List Message :=
  prev ++ [m]

/-- The UPDATE handler: map over the list, replacing the content and
clearing `isEditing` on every message whose id equals the event's id. -/
def liveUpdate (prev : List Message) (uid newContent : String) : List Message :=
  prev.map fun msg =>
    if msg.id = uid then { msg with content := newContent, isEditing := false } else msg

/-- The DELETE handler: `prev.filter(msg => msg.id !== deletedMessage.id)`. -/
def liveDelete (prev : List Message) (did : String) : List Message :=
  prev.filter fun msg => decide (msg.id ≠ did)

/-- `startEditMessage`: the target id gets `isEditing := true`, every
other message gets `isEditing := false`. -/
def startEditMessage (prev : List Message) (target : Message) : List Message :=
  prev.map fun msg =>
    if msg.id = target.id then { msg with isEditing := true } else { msg with isEditing := false }

/-- `cancelEditMessage`: clear `isEditing` on every message. -/
def cancelEditMessage (prev : List Message) : List Message :=
  prev.map fun msg => { msg with isEditing := false }

/-- The raw `payload.new` of a realtime INSERT event (foreign keys only,
no display identity). -/
structure InsertPayload where
  id : String
  content : String
  created_at : Nat
  sender_id : String
  conversation_id : String
deriving DecidableEq

/-- The INSERT handler including the secondary sender lookup: the email
of the sender is fetched from `users`; when the lookup yields no record
(`data` falsy) the event is dropped, otherwise the normalized message is
appended. -/
def handleInsertEvent (lookupEmail : String → Option String)
    (prev : List Message) (p : InsertPayload) : List Message :=
  match lookupEmail p.sender_id with
  | none => prev
  | some email =>
      liveInsert prev
        { id := p.id, content := p.content, created_at := p.created_at,
          sender_id := p.sender_id, conversation_id := p.conversation_id,
          sender := { email := email } }

/-- JavaScript's `String.prototype.trim`: strip leading and trailing
whitespace. -/
def jsTrim (s : String) : String :=
  ⟨((s.data.dropWhile Char.isWhitespace).reverse.dropWhile Char.isWhitespace).reverse⟩

/-- The insert issued by `sendMessage` (`conversation_id`, `sender_id`,
`content`). -/
structure InsertRequest where
  conversation_id : String
  sender_id : String
  content : String
deriving DecidableEq

/-- The component-local state touched by the mutation handlers. -/
structure ChatState where
  messages : List Message
  newMessage : String
  editMessage : String
deriving DecidableEq

/-- The `sendMessage` handler: bail out when the trimmed body is empty
(before any network call); otherwise issue the insert and, when the call
returns no error, clear the input buffer.  The second component is the
insert sent to the store (`none` when no call reached it). -/
def sendMessage (st : ChatState) (conversationId userId : String) (networkOk : Bool) :
    ChatState × Option InsertRequest :=
  if jsTrim st.newMessage = "" then (st, none)
  else if networkOk then
    ({ st with newMessage := "" },
     some { conversation_id := conversationId, sender_id := userId, content := st.newMessage })
  else (st, none)

/-- The store-side conditional update of `saveEditMessage`:
`update({content}).eq('id', messageId).eq('sender_id', userId)`. -/
def storeUpdateRows (rows : List MsgRow) (messageId newContent actingUserId : String) :
    List MsgRow :=
  rows.map fun r =>
    if r.id = messageId ∧ r.sender_id = actingUserId then { r with content := newContent } else r

/-- Number of rows the conditional update of `saveEditMessage` affects. -/
def storeUpdateAffected (rows : List MsgRow) (messageId actingUserId : String) : Nat :=
  rows.countP fun r => decide (r.id = messageId ∧ r.sender_id = actingUserId)

/-- The store-side conditional delete of `deleteMessage`:
`delete().eq('id', messageId).eq('sender_id', userId)`. -/
def storeDeleteRows (rows : List MsgRow) (messageId actingUserId : String) : List MsgRow :=
  rows.filter fun r => !decide (r.id = messageId ∧ r.sender_id = actingUserId)

/-- Number of rows the conditional delete of `deleteMessage` affects. -/
def storeDeleteAffected (rows : List MsgRow) (messageId actingUserId : String) : Nat :=
  rows.countP fun r => decide (r.id = messageId ∧ r.sender_id = actingUserId)

/-- The `deleteMessage` handler over the store's message table: when the
call returns no error the conditional delete is applied and
`toast.success('Message deleted')` fires; on a thrown error nothing
changes and an error toast is shown instead.  The `Bool` result records
whether success was reported to the user. -/
def deleteMessageClient (rows : List MsgRow) (messageId userId : String)
    (networkOk : Bool) : List MsgRow × Bool :=
  if networkOk then (storeDeleteRows rows messageId userId, true)
  else (rows, false)

/-- The `saveEditMessage` handler: bail out on an all-whitespace edit
buffer; otherwise apply the conditional update and clear the buffer when
the call returns no error.  The result is (table rows after, edit buffer
after, whether success was reported to the user) — the source shows no
success toast on this path. -/
def saveEditMessageClient (rows : List MsgRow) (messageId userId editBuffer : String)
    (networkOk : Bool) : List MsgRow × String × Bool :=
  if jsTrim editBuffer = "" then (rows, editBuffer, false)
  else if networkOk then (storeUpdateRows rows messageId editBuffer userId, "", false)
  else (rows, editBuffer, false)

/-- UPDATE events the change feed emits for a conditional content update:
one per affected row. -/
def updateEventsFor (rows : List MsgRow) (messageId actingUserId : String) : List String :=
  (rows.filter fun r => decide (r.id = messageId ∧ r.sender_id = actingUserId)).map MsgRow.id

/-- DELETE events the change feed emits for a conditional delete: one per
affected row. -/
def deleteEventsFor (rows : List MsgRow) (messageId actingUserId : String) : List String :=
  (rows.filter fun r => decide (r.id = messageId ∧ r.sender_id = actingUserId)).map MsgRow.id

/-- Application of a batch of feed UPDATE events to the canonical list. -/
def applyUpdateEvents (prev : List Message) (newContent : String) (evs : List String) :
    List Message :=
  evs.foldl (fun acc e => liveUpdate acc e newContent) prev

/-- Application of a batch of feed DELETE events to the canonical list. -/
def applyDeleteEvents (prev : List Message) (evs : List String) : List Message :=
  evs.foldl liveDelete prev

/-- A row of the `friend_requests` table. -/
structure FriendRequest where
  id : String
  sender_id : String
  receiver_id : String
  status : String
deriving DecidableEq

/-- A row of the `participants` table. -/
structure ParticipantRow where
  conversation_id : String
  user_id : String
deriving DecidableEq

/-- The store tables `handleAcceptRequest` touches (conversations carry
only their id here; the source inserts an empty record and reads back the
assigned id). -/
structure AppDb where
  friend_requests : List FriendRequest
  conversations : List String
  participants : List ParticipantRow
deriving DecidableEq

/-- The `handleAcceptRequest` workflow, step by step as the source issues
it: (1) update the request's status to accepted and read the row back
(`single()` fails when no row matches); (2) insert a conversation (the
store assigns `newConvId`); (3) insert both participant rows.  A thrown
error at any step aborts the following steps and reports failure; nothing
already written is rolled back.  Each step's network outcome is an
explicit flag; the `Bool` result is whether success was reported. -/
def handleAcceptRequest (db : AppDb) (requestId newConvId : String)
    (updateOk convOk partOk : Bool) : AppDb × Bool :=
  match db.friend_requests.find? (fun r => decide (r.id = requestId)) with
  | none => (db, false)
  | some req =>
    if updateOk then
      let db1 : AppDb :=
        { db with friend_requests :=
            db.friend_requests.map fun r =>
              if r.id = requestId then { r with status := "accepted" } else r }
      if convOk then
        let db2 : AppDb := { db1 with conversations := db1.conversations ++ [newConvId] }
        if partOk then
          ({ db2 with participants := db2.participants ++
              [{ conversation_id := newConvId, user_id := req.sender_id },
               { conversation_id := newConvId, user_id := req.receiver_id }] }, true)
        else (db2, false)
      else (db1, false)
    else (db, false)

/-- Ascending order by creation timestamp, the canonical list's invariant. -/
def sortedAsc (l : List Message) : Prop :=
  l.Pairwise fun a b => a.created_at ≤ b.created_at

/-- Descending order by creation timestamp, the store query's order. -/
def rowsSortedDesc (l : List MsgRow) : Prop :=
  l.Pairwise fun a b => b.created_at ≤ a.created_at

/-- No message id occurs twice in the list. -/
def noDupIds (l : List Message) : Prop :=
  (l.map Message.id).Nodup

/-- Number of messages whose editing flag is set. -/
def editingCount (l : List Message) : Nat :=
  l.countP fun m => m.isEditing

/-- The mutual-exclusivity invariant of the editing flag. -/
def atMostOneEditing (l : List Message) : Prop :=
  editingCount l ≤ 1

/-- A sample message used by the concrete counterexamples and witnesses. -/
def mA : Message :=
  { id := "m1", content := "hi", created_at := 5, sender_id := "u1",
    conversation_id := "c1", sender := { email := "a@x" } }

/-- A sample stored row authored by `alice`. -/
def rowA : MsgRow :=
  { id := "m1", content := "hi", created_at := 5, sender_id := "alice",
    conversation_id := "c1", sender_email := "a@x" }

/-- A database with one pending friend request from `ua` to `ub`. -/
def db0 : AppDb :=
  { friend_requests := [{ id := "r1", sender_id := "ua", receiver_id := "ub", status := "pending" }],
    conversations := [], participants := [] }

/-- The n-th row of the 25-message fixture (timestamps 1..25). -/
def row25 (n : Nat) : MsgRow :=
  { id := "m" ++ toString n, content := "b" ++ toString n, created_at := n,
    sender_id := "u1", conversation_id := "c1", sender_email := "a@x" }

/-- A conversation with exactly 25 messages, timestamps 1..25. -/
def msgs25 : List MsgRow :=
  (List.range 25).map fun n => row25 (n + 1)

theorem mem_insertDesc {r a : MsgRow} {l : List MsgRow} :
    a ∈ insertDesc r l ↔ a = r ∨ a ∈ l := by
  induction l with
  | nil => simp [insertDesc]
  | cons x xs ih =>
      by_cases h : x.created_at ≤ r.created_at
      · simp [insertDesc, h]
      · simp only [insertDesc, if_neg h, List.mem_cons, ih]
        tauto

theorem rowsSortedDesc_insertDesc {r : MsgRow} {l : List MsgRow}
    (h : rowsSortedDesc l) : rowsSortedDesc (insertDesc r l) := by
  induction l with
  | nil => simp [insertDesc, rowsSortedDesc]
  | cons x xs ih =>
      rw [rowsSortedDesc, List.pairwise_cons] at h
      by_cases hc : x.created_at ≤ r.created_at
      · rw [rowsSortedDesc]
        simp only [insertDesc, if_pos hc]
        rw [List.pairwise_cons]
        refine ⟨?_, ?_⟩
        · intro b hb
          rcases List.mem_cons.1 hb with rfl | hb2
          · exact hc
          · exact le_trans (h.1 b hb2) hc
        · rw [List.pairwise_cons]
          exact ⟨h.1, h.2⟩
      · rw [rowsSortedDesc]
        simp only [insertDesc, if_neg hc]
        rw [List.pairwise_cons]
        refine ⟨?_, ih h.2⟩
        intro b hb
        rcases mem_insertDesc.1 hb with rfl | hb2
        · exact le_of_lt (lt_of_not_le hc)
        · exact h.1 b hb2

theorem rowsSortedDesc_sortDesc (l : List MsgRow) : rowsSortedDesc (sortDesc l) := by
  induction l with
  | nil => simp [sortDesc, rowsSortedDesc]
  | cons x xs ih => exact rowsSortedDesc_insertDesc ih

theorem sortedAsc_loadMessages (rows : List MsgRow) (cid : String) (p : Nat) :
    sortedAsc (loadMessages rows cid p).1 := by
  rw [sortedAsc, loadMessages, queryRange]
  simp only [List.pairwise_map, List.pairwise_reverse]
  exact List.Pairwise.sublist ((List.take_sublist _ _).trans (List.drop_sublist _ _))
    (rowsSortedDesc_sortDesc _)

theorem liveUpdate_entry_created_at (uid c : String) (m : Message) :
    (if m.id = uid then { m with content := c, isEditing := false } else m).created_at
      = m.created_at := by
  split <;> rfl

theorem editingCount_startEditMessage (prev : List Message) (target : Message) :
    editingCount (startEditMessage prev target)
      = prev.countP fun m => decide (m.id = target.id) := by
  rw [editingCount, startEditMessage, List.countP_map]
  refine List.countP_congr ?_
  intro m _
  by_cases h : m.id = target.id <;> simp [h, Function.comp]

theorem countP_id_le_one (t : String) :
    ∀ {prev : List Message}, noDupIds prev →
      prev.countP (fun m => decide (m.id = t)) ≤ 1 := by
  intro prev
  induction prev with
  | nil => intro _; simp
  | cons x xs ih =>
      intro h
      rw [noDupIds, List.map_cons, List.nodup_cons] at h
      rw [List.countP_cons]
      by_cases hx : x.id = t
      · have hzero : xs.countP (fun m => decide (m.id = t)) = 0 := by
          rw [List.countP_eq_zero]
          intro m hm
          simp only [decide_eq_true_eq]
          intro hmt
          exact h.1 (by rw [hx, ← hmt]; exact List.mem_map_of_mem Message.id hm)
        simp [hx, hzero]
      · have hb := ih h.2
        simpa [hx] using hb

/-- C2: after every operation on the canonical list — page load (initial
or backfill), backward page prepend, live insert, live update and live
delete — the list is sorted ascending by creation timestamp, where
prepended pages hold only messages older than everything present and
live-inserted messages are newer than everything present. -/
theorem c2_ordering_invariant :
    (∀ rows cid p, sortedAsc (loadMessages rows cid p).1)
  ∧ (∀ page prev, sortedAsc page → sortedAsc prev →
      (∀ a ∈ page, ∀ b ∈ prev, a.created_at < b.created_at) →
      sortedAsc (pagePrepend page prev))
  ∧ (∀ prev m, sortedAsc prev → (∀ b ∈ prev, b.created_at < m.created_at) →
      sortedAsc (liveInsert prev m))
  ∧ (∀ prev uid c, sortedAsc prev → sortedAsc (liveUpdate prev uid c))
  ∧ (∀ prev did, sortedAsc prev → sortedAsc (liveDelete prev did)) := by
  refine ⟨sortedAsc_loadMessages, ?_, ?_, ?_, ?_⟩
  · intro page prev hp hq hlt
    rw [sortedAsc, pagePrepend, List.pairwise_append]
    exact ⟨hp, hq, fun a ha b hb => le_of_lt (hlt a ha b hb)⟩
  · intro prev m hp hlt
    rw [sortedAsc, liveInsert, List.pairwise_append]
    refine ⟨hp, by simp, ?_⟩
    intro a ha b hb
    rw [List.mem_singleton] at hb
    subst hb
    exact le_of_lt (hlt a ha)
  · intro prev uid c hp
    rw [sortedAsc, liveUpdate, List.pairwise_map]
    refine hp.imp ?_
    intro a b hab
    rw [liveUpdate_entry_created_at, liveUpdate_entry_created_at]
    exact hab
  · intro prev did hp
    exact List.Pairwise.sublist (List.filter_sublist _) hp

/-- C1 (counterexample): a message delivered by a live insert and then
returned by a backfill page is NOT dropped — the page append concatenates
and the resulting canonical list holds the same id twice; likewise a live
insert appends even though the id is already present. -/
theorem c1_duplicate_id_counterexample :
    ¬ noDupIds (pagePrepend [mA] (liveInsert [] mA))
  ∧ liveInsert [mA] mA = [mA, mA] := by
  constructor
  · rw [noDupIds]; decide
  · rfl

/-- C1 (amended): the code performs no deduplication — a backward page
append concatenates the page in front and a live insert appends at the
end unconditionally; no id appears twice only under the precondition that
the incoming ids are fresh: the page's ids (themselves duplicate-free)
disjoint from those present, and a live-inserted id not already in the
list. -/
theorem c1_no_duplicates_amended :
    (∀ page prev, noDupIds page → noDupIds prev →
      (∀ a ∈ page, ∀ b ∈ prev, a.id ≠ b.id) → noDupIds (pagePrepend page prev))
  ∧ (∀ prev m, noDupIds prev → (∀ b ∈ prev, m.id ≠ b.id) →
      noDupIds (liveInsert prev m)) := by
  constructor
  · intro page prev hp hq hne
    rw [noDupIds, pagePrepend, List.map_append, List.nodup_append]
    refine ⟨hp, hq, ?_⟩
    intro s hs hs2
    rcases List.mem_map.1 hs with ⟨a, ha, rfl⟩
    rcases List.mem_map.1 hs2 with ⟨b, hb, hab⟩
    exact hne a ha b hb hab.symm
  · intro prev m hp hne
    rw [noDupIds, liveInsert, List.map_append, List.nodup_append]
    refine ⟨hp, by simp, ?_⟩
    intro s hs hs2
    rcases List.mem_map.1 hs with ⟨b, hb, rfl⟩
    simp only [List.map_cons, List.map_nil, List.mem_singleton] at hs2
    exact hne b hb hs2.symm

/-- C6 (counterexample): on a reachable canonical list holding the same
id twice (live insert then overlapping page append), starting an edit on
that id sets the editing flag on BOTH copies: two messages are editing at
once, so the mutual-exclusivity invariant is not preserved by
`startEditMessage` as the claim states it. -/
theorem c6_two_editing_counterexample :
    editingCount (startEditMessage (pagePrepend [mA] (liveInsert [] mA)) mA) = 2
  ∧ ¬ atMostOneEditing (startEditMessage (pagePrepend [mA] (liveInsert [] mA)) mA) := by
  constructor
  · rw [editingCount]; decide
  · rw [atMostOneEditing, editingCount]; decide

/-- C6 (amended): provided the canonical list holds no duplicate ids,
at most one message is ever in editing state: a message of the result of
`startEditMessage` is editing exactly when it carries the target's id,
and at most one does; `cancelEditMessage` clears every flag; page loads
return no editing messages; and prepend, insert, update and delete all
preserve the at-most-one-editing invariant. -/
theorem c6_editing_exclusivity_amended :
    (∀ prev target, ∀ m ∈ startEditMessage prev target, (m.isEditing = true ↔ m.id = target.id))
  ∧ (∀ prev target, noDupIds prev → atMostOneEditing (startEditMessage prev target))
  ∧ (∀ prev, editingCount (cancelEditMessage prev) = 0)
  ∧ (∀ rows cid p, editingCount (loadMessages rows cid p).1 = 0)
  ∧ (∀ page prev, (∀ m ∈ page, m.isEditing = false) → atMostOneEditing prev →
      atMostOneEditing (pagePrepend page prev))
  ∧ (∀ prev m, m.isEditing = false → atMostOneEditing prev →
      atMostOneEditing (liveInsert prev m))
  ∧ (∀ prev uid c, atMostOneEditing prev → atMostOneEditing (liveUpdate prev uid c))
  ∧ (∀ prev did, atMostOneEditing prev → atMostOneEditing (liveDelete prev did)) := by
  refine ⟨?_, ?_, ?_, ?_, ?_, ?_, ?_, ?_⟩
  · intro prev target m hm
    rw [startEditMessage] at hm
    rcases List.mem_map.1 hm with ⟨a, ha, rfl⟩
    by_cases h : a.id = target.id <;> simp [h]
  · intro prev target h
    rw [atMostOneEditing, editingCount_startEditMessage]
    exact countP_id_le_one _ h
  · intro prev
    rw [editingCount, cancelEditMessage, List.countP_map, List.countP_eq_zero]
    intro a _
    simp [Function.comp]
  · intro rows cid p
    simp only [editingCount, loadMessages, queryRange]
    rw [List.countP_map, List.countP_eq_zero]
    intro a _
    simp [Function.comp, MsgRow.toMessage]
  · intro page prev hpage h
    rw [atMostOneEditing, editingCount, pagePrepend, List.countP_append]
    have h0 : page.countP (fun m => m.isEditing) = 0 := by
      rw [List.countP_eq_zero]
      intro a ha
      simp [hpage a ha]
    have h2 : editingCount prev ≤ 1 := h
    rw [editingCount] at h2
    omega
  · intro prev m hm h
    rw [atMostOneEditing, editingCount, liveInsert, List.countP_append]
    have h0 : List.countP (fun m => m.isEditing) [m] = 0 := by
      simp [hm]
    have h2 : editingCount prev ≤ 1 := h
    rw [editingCount] at h2
    omega
  · intro prev uid c h
    rw [atMostOneEditing, editingCount, liveUpdate, List.countP_map]
    have h2 : editingCount prev ≤ 1 := h
    rw [editingCount] at h2
    refine le_trans (List.countP_mono_left ?_) h2
    intro x _ hx
    simp only [Function.comp] at hx
    by_cases hid : x.id = uid
    · simp [hid] at hx
    · simpa [hid] using hx
  · intro prev did h
    have h2 : editingCount prev ≤ 1 := h
    rw [editingCount] at h2
    rw [atMostOneEditing, editingCount]
    exact le_trans (List.Sublist.countP_le _ (List.filter_sublist _)) h2

/-- C5: `loadMessages` fetches the descending window starting at
`page * 20` of length at most 20, returns it reversed (ascending) and
reports `hasMore` exactly when `page * 20 + returnedCount` is below the
conversation's total count; on the 25-message fixture, page 0 yields the
20 most recent ascending with `hasMore = true` and page 1 prepends the
remaining 5, yielding all 25 ascending with `hasMore = false`. -/
theorem c5_pagination :
    (∀ rows cid p,
        ((loadMessages rows cid p).2 = true ↔
          p * MESSAGES_PER_PAGE + (loadMessages rows cid p).1.length
            < (rows.filter fun r => decide (r.conversation_id = cid)).length)
      ∧ (loadMessages rows cid p).1 =
          ((((sortDesc (rows.filter fun r => decide (r.conversation_id = cid))).drop
              (p * MESSAGES_PER_PAGE)).take MESSAGES_PER_PAGE).reverse).map MsgRow.toMessage)
  ∧ (loadMessages msgs25 "c1" 0).1.length = 20
  ∧ (loadMessages msgs25 "c1" 0).1.map Message.created_at
      = (List.range 20).map (fun n => n + 6)
  ∧ (loadMessages msgs25 "c1" 0).2 = true
  ∧ (loadMessages msgs25 "c1" 1).1.map Message.created_at
      = (List.range 5).map (fun n => n + 1)
  ∧ (loadMessages msgs25 "c1" 1).2 = false
  ∧ (pagePrepend (loadMessages msgs25 "c1" 1).1 (loadMessages msgs25 "c1" 0).1).length = 25
  ∧ (pagePrepend (loadMessages msgs25 "c1" 1).1 (loadMessages msgs25 "c1" 0).1).map
      Message.created_at = (List.range 25).map (fun n => n + 1) := by
  refine ⟨?_, by decide, by decide, by decide, by decide, by decide, by decide, by decide⟩
  intro rows cid p
  have harith : p * MESSAGES_PER_PAGE + MESSAGES_PER_PAGE - 1 + 1 - p * MESSAGES_PER_PAGE
      = MESSAGES_PER_PAGE := by
    rw [MESSAGES_PER_PAGE]; omega
  constructor
  · simp [loadMessages, queryRange]
  · simp only [loadMessages, queryRange]
    rw [harith]

/-- C7: a live update event replaces, position by position, the content
of every message carrying the event's id and clears its editing flag,
and leaves every message with a different id unchanged; the list's
length is unchanged.  The hypothesis mirrors the claim's premise that
the event's id matches some message of the list. -/
theorem c7_live_update (prev : List Message) (uid c : String)
    (_hmem : ∃ m ∈ prev, m.id = uid) :
    (liveUpdate prev uid c).length = prev.length
  ∧ (∀ i : Nat, (liveUpdate prev uid c)[i]? = Option.map
      (fun m : Message => if m.id = uid then { m with content := c, isEditing := false } else m)
      prev[i]?)
  ∧ (∀ m ∈ prev, m.id ≠ uid → m ∈ liveUpdate prev uid c) := by
  refine ⟨by rw [liveUpdate]; exact List.length_map _ _, ?_, ?_⟩
  · intro i
    rw [liveUpdate, List.getElem?_map]
  · intro m hm hne
    rw [liveUpdate]
    have heq : (if m.id = uid then { m with content := c, isEditing := false } else m) = m :=
      if_neg hne
    exact heq ▸ List.mem_map_of_mem _ hm

/-- C7 witness: the live update at the singleton list holding `mA`. -/
theorem c7_live_update_witness :
    (liveUpdate [mA] "m1" "yo").length = ([mA] : List Message).length
  ∧ (∀ i : Nat, (liveUpdate [mA] "m1" "yo")[i]? = Option.map
      (fun m : Message => if m.id = "m1" then { m with content := "yo", isEditing := false } else m)
      (([mA] : List Message)[i]?))
  ∧ (∀ m ∈ ([mA] : List Message), m.id ≠ "m1" → m ∈ liveUpdate [mA] "m1" "yo") :=
  c7_live_update [mA] "m1" "yo" ⟨mA, by simp, rfl⟩

theorem jsTrim_eq_empty_of_whitespace {s : String}
    (h : ∀ ch ∈ s.data, ch.isWhitespace = true) : jsTrim s = "" := by
  rw [jsTrim]
  have h1 : s.data.dropWhile Char.isWhitespace = [] := List.dropWhile_eq_nil_iff.2 h
  rw [h1]
  rfl

/-- C8: when the input buffer is empty or all whitespace, `sendMessage`
returns before any network call: no insert is issued to the store and the
local state (message list, buffers) is exactly unchanged. -/
theorem c8_empty_send_noop (st : ChatState) (cid uid : String) (networkOk : Bool)
    (h : ∀ ch ∈ st.newMessage.data, ch.isWhitespace = true) :
    sendMessage st cid uid networkOk = (st, none) := by
  rw [sendMessage, if_pos (jsTrim_eq_empty_of_whitespace h)]

/-- C8 witness: sending with a single-space buffer changes nothing. -/
theorem c8_empty_send_noop_witness :
    sendMessage { messages := [mA], newMessage := " ", editMessage := "x" } "c1" "u1" true
      = ({ messages := [mA], newMessage := " ", editMessage := "x" }, none) :=
  c8_empty_send_noop { messages := [mA], newMessage := " ", editMessage := "x" } "c1" "u1" true
    (by decide)

/-- C9: a live insert whose secondary sender lookup yields no record is
suppressed — the canonical list is returned unchanged; the normalized
message is appended exactly when the lookup succeeds. -/
theorem c9_insert_lookup_suppression (lookupEmail : String → Option String)
    (prev : List Message) (p : InsertPayload) :
    (lookupEmail p.sender_id = none → handleInsertEvent lookupEmail prev p = prev)
  ∧ (∀ email, lookupEmail p.sender_id = some email →
      handleInsertEvent lookupEmail prev p
        = prev ++ [{ id := p.id, content := p.content, created_at := p.created_at,
                     sender_id := p.sender_id, conversation_id := p.conversation_id,
                     sender := { email := email } }]) := by
  constructor
  · intro h
    rw [handleInsertEvent, h]
  · intro email h
    simp [handleInsertEvent, h, liveInsert]

/-- C10: a live update or delete event whose id matches no message of
the canonical list leaves the list entirely unchanged. -/
theorem c10_unmatched_event_frame (prev : List Message) (eid : String)
    (h : ∀ m ∈ prev, m.id ≠ eid) :
    (∀ c, liveUpdate prev eid c = prev) ∧ liveDelete prev eid = prev := by
  constructor
  · intro c
    rw [liveUpdate]
    have hcong : ∀ a ∈ prev,
        (if a.id = eid then { a with content := c, isEditing := false } else a) = id a := by
      intro a ha
      simp [h a ha]
    rw [List.map_congr_left hcong, List.map_id]
  · rw [liveDelete, List.filter_eq_self]
    intro a ha
    simp [h a ha]

/-- C10 witness: an event for the absent id `zz` on the singleton list. -/
theorem c10_unmatched_event_frame_witness :
    (∀ c, liveUpdate [mA] "zz" c = [mA]) ∧ liveDelete [mA] "zz" = [mA] :=
  c10_unmatched_event_frame [mA] "zz" (by decide)

/-- C3 (counterexample): on the database with the single pending request
`r1`, when the status update succeeds and the conversation insert then
fails, the workflow stops with the request already marked accepted and no
conversation provisioned — a partial state change, contradicting the
claimed all-or-nothing behavior. -/
theorem c3_partial_accept_counterexample :
    (handleAcceptRequest db0 "r1" "c9" true false true).1
      = { friend_requests :=
            [{ id := "r1", sender_id := "ua", receiver_id := "ub", status := "accepted" }],
          conversations := [], participants := [] }
  ∧ (handleAcceptRequest db0 "r1" "c9" true false true).2 = false := by
  constructor
  · decide
  · decide

/-- C3 (amended): `handleAcceptRequest` runs its three store writes in
sequence without rollback.  When every call succeeds, the request is
accepted, exactly one conversation is created and both parties are
inserted as its participants, and success is reported.  When the status
update itself fails, nothing changes and failure is reported.  But when a
later step fails, failure is reported while the steps already performed
persist: after a failed conversation insert the request stays accepted
with no conversation. -/
theorem c3_accept_request_amended (db : AppDb) (requestId newConvId : String)
    (req : FriendRequest)
    (hfind : db.friend_requests.find? (fun r => decide (r.id = requestId)) = some req) :
    handleAcceptRequest db requestId newConvId true true true
      = ({ friend_requests := db.friend_requests.map
             (fun r => if r.id = requestId then { r with status := "accepted" } else r),
           conversations := db.conversations ++ [newConvId],
           participants := db.participants
             ++ [{ conversation_id := newConvId, user_id := req.sender_id },
                 { conversation_id := newConvId, user_id := req.receiver_id }] }, true)
  ∧ (∀ convOk partOk, handleAcceptRequest db requestId newConvId false convOk partOk
        = (db, false))
  ∧ (∀ partOk,
        (handleAcceptRequest db requestId newConvId true false partOk).2 = false
      ∧ (handleAcceptRequest db requestId newConvId true false partOk).1.conversations
          = db.conversations
      ∧ (handleAcceptRequest db requestId newConvId true false partOk).1.friend_requests
          = db.friend_requests.map
              (fun r => if r.id = requestId then { r with status := "accepted" } else r)) := by
  refine ⟨?_, ?_, ?_⟩
  · rw [handleAcceptRequest, hfind]
    rfl
  · intro convOk partOk
    rw [handleAcceptRequest, hfind]
    rfl
  · intro partOk
    refine ⟨?_, ?_, ?_⟩ <;> (rw [handleAcceptRequest, hfind]; rfl)

/-- C3 witness: the amended behavior at the one-pending-request database. -/
theorem c3_accept_request_amended_witness :
    handleAcceptRequest db0 "r1" "c9" true true true
      = ({ friend_requests := db0.friend_requests.map
             (fun r => if r.id = "r1" then { r with status := "accepted" } else r),
           conversations := db0.conversations ++ ["c9"],
           participants := db0.participants
             ++ [{ conversation_id := "c9", user_id := "ua" },
                 { conversation_id := "c9", user_id := "ub" }] }, true)
  ∧ (∀ convOk partOk, handleAcceptRequest db0 "r1" "c9" false convOk partOk = (db0, false))
  ∧ (∀ partOk,
        (handleAcceptRequest db0 "r1" "c9" true false partOk).2 = false
      ∧ (handleAcceptRequest db0 "r1" "c9" true false partOk).1.conversations
          = db0.conversations
      ∧ (handleAcceptRequest db0 "r1" "c9" true false partOk).1.friend_requests
          = db0.friend_requests.map
              (fun r => if r.id = "r1" then { r with status := "accepted" } else r)) :=
  c3_accept_request_amended db0 "r1" "c9"
    { id := "r1", sender_id := "ua", receiver_id := "ub", status := "pending" } (by decide)

/-- C4 (counterexample): `bob` deletes `alice`'s message `m1`: the
conditional delete affects zero rows and the store is unchanged, yet the
handler reports success to the user (`toast.success`) because the call
returned no error — contradicting the claim that a non-author mutation is
never reported as success. -/
theorem c4_delete_reports_success_counterexample :
    (deleteMessageClient [rowA] "m1" "bob" true).1 = [rowA]
  ∧ (deleteMessageClient [rowA] "m1" "bob" true).2 = true
  ∧ storeDeleteAffected [rowA] "m1" "bob" = 0 := by
  refine ⟨by decide, by decide, by decide⟩

/-- C4 (amended): an edit or delete issued by a non-author affects zero
rows — the store-side conditional write leaves the table unchanged, the
change feed therefore emits no event and the canonical list is unchanged —
and the edit path never reports success; the delete path, however,
reports success whenever the store call itself returns no error, even
when zero rows were affected. -/
theorem c4_nonauthor_noop_amended :
    (∀ rows mid uid c, (∀ r ∈ rows, r.id = mid → r.sender_id ≠ uid) →
        storeUpdateRows rows mid c uid = rows ∧ storeUpdateAffected rows mid uid = 0)
  ∧ (∀ rows mid uid, (∀ r ∈ rows, r.id = mid → r.sender_id ≠ uid) →
        storeDeleteRows rows mid uid = rows ∧ storeDeleteAffected rows mid uid = 0)
  ∧ (∀ rows mid uid prev c, (∀ r ∈ rows, r.id = mid → r.sender_id ≠ uid) →
        applyUpdateEvents prev c (updateEventsFor rows mid uid) = prev
      ∧ applyDeleteEvents prev (deleteEventsFor rows mid uid) = prev)
  ∧ (∀ rows mid uid buf ok, (saveEditMessageClient rows mid uid buf ok).2.2 = false) := by
  have hnomatch : ∀ (rows : List MsgRow) (mid uid : String),
      (∀ r ∈ rows, r.id = mid → r.sender_id ≠ uid) →
      ∀ r ∈ rows, ¬ (decide (r.id = mid ∧ r.sender_id = uid) = true) := by
    intro rows mid uid hne r hr
    simp only [decide_eq_true_eq]
    rintro ⟨h1, h2⟩
    exact hne r hr h1 h2
  refine ⟨?_, ?_, ?_, ?_⟩
  · intro rows mid uid c hne
    constructor
    · rw [storeUpdateRows]
      have hcong : ∀ r ∈ rows,
          (if r.id = mid ∧ r.sender_id = uid then { r with content := c } else r) = id r := by
        intro r hr
        have := hnomatch rows mid uid hne r hr
        rw [decide_eq_true_eq] at this
        simp [this]
      rw [List.map_congr_left hcong, List.map_id]
    · rw [storeUpdateAffected, List.countP_eq_zero]
      exact hnomatch rows mid uid hne
  · intro rows mid uid hne
    constructor
    · rw [storeDeleteRows, List.filter_eq_self]
      intro r hr
      simp only [Bool.not_eq_true']
      exact Bool.not_eq_true _ ▸ Bool.eq_false_iff.2 (hnomatch rows mid uid hne r hr)
    · rw [storeDeleteAffected, List.countP_eq_zero]
      exact hnomatch rows mid uid hne
  · intro rows mid uid prev c hne
    have hfil : rows.filter (fun r => decide (r.id = mid ∧ r.sender_id = uid)) = [] :=
      List.filter_eq_nil_iff.2 (hnomatch rows mid uid hne)
    constructor
    · rw [updateEventsFor, hfil]
      rfl
    · rw [deleteEventsFor, hfil]
      rfl
  · intro rows mid uid buf ok
    rw [saveEditMessageClient]
    split_ifs <;> rfl

/-- C4 witness: the amended behavior at `bob` acting on `alice`'s row. -/
theorem c4_nonauthor_noop_amended_witness :
    (storeUpdateRows [rowA] "m1" "x" "bob" = [rowA]
      ∧ storeUpdateAffected [rowA] "m1" "bob" = 0)
  ∧ (storeDeleteRows [rowA] "m1" "bob" = [rowA]
      ∧ storeDeleteAffected [rowA] "m1" "bob" = 0)
  ∧ (applyUpdateEvents [mA] "x" (updateEventsFor [rowA] "m1" "bob") = [mA]
      ∧ applyDeleteEvents [mA] (deleteEventsFor [rowA] "m1" "bob") = [mA])
  ∧ (saveEditMessageClient [rowA] "m1" "bob" "x" true).2.2 = false :=
  ⟨c4_nonauthor_noop_amended.1 [rowA] "m1" "bob" "x" (by decide),
   c4_nonauthor_noop_amended.2.1 [rowA] "m1" "bob" (by decide),
   c4_nonauthor_noop_amended.2.2.1 [rowA] "m1" "bob" [mA] "x" (by decide),
   c4_nonauthor_noop_amended.2.2.2 [rowA] "m1" "bob" "x" true⟩

end ChatApp
